import Mathlib

/-!
Verification of the Split Lease search-page pricing and amenity core.

The pricing functions are embedded from the pricing display utilities module
(`renderEnhancedPricing` / `calculateDynamicPrice` / `interpolatePricing` /
`getPriceForNights`), the amenity functions from
`app/search-page-2/js/amenity-utils.js` (`AMENITY_PRIORITY_MAP` /
`parseAmenities` / `fetchAmenityDetails`).

Field values read off a listing record are modelled as `Option ℚ`: `none` is an
absent field (JS `undefined`), `some q` a numeric field.  JS truthiness on such
a value: `undefined` and `0` are falsy, every other number is truthy.
`parseFloat` on an already-numeric value is the identity and is dropped.
-/

namespace SplitLease

/-- Truthiness of an optional numeric field value (JS: `undefined` and `0` are falsy). -/
def truthy : Option ℚ → Bool
  | none => false
  | some q => q != 0

/-- Model of the JS expression `a || b` on two field values: `a` when truthy, else `b`. -/
def jsOr (a b : Option ℚ) : Option ℚ :=
  if truthy a then a else b

/-- Model of the recurring JS guard `price && price > 0`: truthy and strictly positive,
which for a numeric-or-absent value is exactly `some q` with `0 < q`. -/
def pricePos : Option ℚ → Bool
  | none => false
  | some q => decide (0 < q)

/-- A listing record, restricted to the fields the pricing functions read.
`priceSel n` models the field `Price n nights selected`, `emojiRate n` the
emoji-named field `Nightly Host Rate for n nights`, `startingNightly` the field
`Starting nightly price`, and `priceStarting` the optional chain `listing.price?.starting`. -/
structure Listing where
  priceSel : Int → Option ℚ
  emojiRate : Int → Option ℚ
  startingNightly : Option ℚ
  priceStarting : Option ℚ

/-- Source tag for a resolved price: which branch of `calculateDynamicPrice` /
`interpolatePricing` produced the returned value. -/
inductive PriceSource where
  | Exact
  | Interpolated
  | NearestNeighbor
  | StartingPriceFallback
  | Unavailable
  deriving DecidableEq, Repr

/-- Embedding of the collection loop of `interpolatePricing`: for nights 2..7 the
value `listing[fieldName] || listing[emojiFieldName]` is kept when it passes
`price && price > 0`, as the pair `(nights, price)`, in ascending night order. -/
def availablePrices (l : Listing) : List (Int × ℚ) :=
  (List.range 6).filterMap fun i =>
    let nights : Int := (i : Int) + 2
    let price := jsOr (l.priceSel nights) (l.emojiRate nights)
    if pricePos price then some (nights, price.getD 0) else none

/-- Candidate lower brackets of `interpolatePricing`: the available prices with a
night count strictly below the target, sorted by descending night count
(`(a, b) => b.nights - a.nights`; `Array.prototype.sort` is stable, modelled by
`List.insertionSort`).  The JS takes element `[0]` of this list. -/
def lowerSorted (l : Listing) (targetNights : Int) : List (Int × ℚ) :=
  ((availablePrices l).filter fun p => decide (p.1 < targetNights)).insertionSort
    fun a b => b.1 ≤ a.1

/-- Candidate upper brackets of `interpolatePricing`: the available prices with a
night count strictly above the target, sorted by ascending night count
(`(a, b) => a.nights - b.nights`).  The JS takes element `[0]` of this list. -/
def higherSorted (l : Listing) (targetNights : Int) : List (Int × ℚ) :=
  ((availablePrices l).filter fun p => decide (targetNights < p.1)).insertionSort
    fun a b => a.1 ≤ b.1

/-- Fallback order of `interpolatePricing` when no bracket exists: all available
prices sorted by ascending distance of night count to the target
(`(a, b) => Math.abs(a.nights - t) - Math.abs(b.nights - t)`).  The JS takes
element `[0]` of this list. -/
def closestSorted (l : Listing) (targetNights : Int) : List (Int × ℚ) :=
  (availablePrices l).insertionSort
    fun a b => |a.1 - targetNights| ≤ |b.1 - targetNights|

/-- Embedding of `interpolatePricing(listing, targetNights)`, instrumented with the
`PriceSource` of the branch taken.  Fewer than two available prices return 0; when
both a strictly lower and a strictly higher night count exist, the nearest one on
each side is selected and the price is linearly interpolated (`Interpolated`);
otherwise the available price closest in night count to the target is returned
(`NearestNeighbor`).  The numeric component is exactly the JS return value.  The
final `none` case is unreachable because the list has at least two entries. -/
def interpolateTagged (l : Listing) (targetNights : Int) : ℚ × PriceSource :=
  let ap := availablePrices l
  if ap.length < 2 then (0, .Unavailable)
  else
    match (lowerSorted l targetNights).head?, (higherSorted l targetNights).head? with
    | some lo, some hi =>
      (lo.2 + ((targetNights : ℚ) - (lo.1 : ℚ)) / ((hi.1 : ℚ) - (lo.1 : ℚ)) * (hi.2 - lo.2),
        .Interpolated)
    | _, _ =>
      match (closestSorted l targetNights).head? with
      | some c => (c.2, .NearestNeighbor)
      | none => (0, .Unavailable)

/-- Numeric value returned by `interpolatePricing(listing, targetNights)`. -/
def interpolatePricing (l : Listing) (targetNights : Int) : ℚ :=
  (interpolateTagged l targetNights).1

/-- Embedding of the final fallback expression of `calculateDynamicPrice`:
the chain `Starting nightly price || price?.starting || 0` wrapped in
`parseFloat(...) || 0`, which on numeric-or-absent fields is the first truthy
value of the chain, or 0. -/
def startingFallback (l : Listing) : ℚ :=
  (jsOr l.startingNightly (jsOr l.priceStarting (some 0))).getD 0

/-- Tagged final fallback of `calculateDynamicPrice`: a nonzero starting-price chain
value is returned as `StartingPriceFallback`; otherwise the function returns the
literal 0, tagged `Unavailable`. -/
def fallbackResolved (l : Listing) : ℚ × PriceSource :=
  let s := startingFallback l
  if s = 0 then (0, .Unavailable) else (s, .StartingPriceFallback)

/-- Embedding of `calculateDynamicPrice(listing, selectedDaysCount)`, instrumented
with the `PriceSource` of the branch that produced the value: the night count is
`max(selectedDaysCount - 1, 1)`; inside 2..7 the two exact-match checks (plain
field, then emoji field) tag `Exact`, a positive interpolation result keeps the tag
from `interpolateTagged`, and everything else falls through to `fallbackResolved`.
The numeric component is exactly the JS return value. -/
def resolve (l : Listing) (selectedDaysCount : Int) : ℚ × PriceSource :=
  let nightsCount : Int := max (selectedDaysCount - 1) 1
  if 2 ≤ nightsCount ∧ nightsCount ≤ 7 then
    if pricePos (l.priceSel nightsCount) then ((l.priceSel nightsCount).getD 0, .Exact)
    else if pricePos (l.emojiRate nightsCount) then ((l.emojiRate nightsCount).getD 0, .Exact)
    else
      let ip := interpolateTagged l nightsCount
      if 0 < ip.1 then ip else fallbackResolved l
  else fallbackResolved l

/-- Numeric value returned by `calculateDynamicPrice(listing, selectedDaysCount)`. -/
def calculateDynamicPrice (l : Listing) (selectedDaysCount : Int) : ℚ :=
  (resolve l selectedDaysCount).1

/-- Embedding of `getPriceForNights(listing, nights)`: outside 2..7 it returns the
raw starting-price chain `Starting nightly price || price?.starting || 0`; inside,
the merged rate field when it passes `price && price > 0`, else 0. -/
def getPriceForNights (l : Listing) (nights : Int) : ℚ :=
  if nights < 2 ∨ 7 < nights then
    (jsOr l.startingNightly (jsOr l.priceStarting (some 0))).getD 0
  else
    let price := jsOr (l.priceSel nights) (l.emojiRate nights)
    if pricePos price then price.getD 0 else 0

/-- Row of the amenity lookup table `zat_features_amenity`, as selected by the
query in `fetchAmenityDetails`: an `_id`, an optional `Name`, an optional `Icon`
URL (a missing or empty icon string is `none`). -/
structure AmenityRecord where
  _id : String
  Name : Option String
  Icon : Option String
  deriving DecidableEq, Repr

/-- Embedding of `AMENITY_PRIORITY_MAP` as a lookup from lowercased display name to
(priority, fallbackIcon).  The `fallbackName` component of the JS map entries is
never read by `parseAmenities` and is omitted. -/
def AMENITY_PRIORITY_MAP : String → Option (Nat × String)
  | "wifi" => some (1, "📶")
  | "air conditioned" => some (2, "❄️")
  | "gym" => some (3, "💪")
  | "elevator" => some (4, "🏢")
  | "doorman" => some (5, "🚪")
  | "laundry room" => some (6, "🧺")
  | "washer" => some (7, "🧺")
  | "dryer" => some (7, "🧺")
  | "bike storage" => some (8, "🚲")
  | "parking" => some (9, "🅿️")
  | "common outdoor space" => some (10, "🌿")
  | "balcony" => some (11, "🌿")
  | "closet" => some (12, "👔")
  | "tv" => some (13, "📺")
  | "computer" => some (14, "💻")
  | "dedicated workspace" => some (15, "💻")
  | "desk" => some (15, "💻")
  | "towels and linens" => some (16, "🛏️")
  | "hangers" => some (17, "👔")
  | "locked door" => some (18, "🔒")
  | "hot water" => some (19, "💧")
  | "heating" => some (20, "🔥")
  | "kitchen" => some (21, "🍳")
  | "coffee maker" => some (22, "☕")
  | "dishwasher" => some (23, "🍽️")
  | "pet-friendly" => some (24, "🐕")
  | "dog" => some (24, "🐕")
  | "cat" => some (24, "🐕")
  | _ => none

/-- Output entry of `parseAmenities`: id, raw record name, fallback emoji icon,
normalized icon URL, priority, and provenance category string
(`in-unit` or `in-building`). -/
structure RankedAmenity where
  id : String
  name : Option String
  icon : String
  iconUrl : Option String
  priority : Nat
  category : String
  deriving DecidableEq, Repr

/-- Embedding of `fetchAmenityDetails(amenityIds)`.  The query selects the rows of
the `zat_features_amenity` table whose `_id` occurs in `amenityIds`, in table
order; the table itself is passed explicitly as an input.  An empty id list (and,
in the source, an uninitialized client or a query error) short-circuits to `[]`. -/
def fetchAmenityDetails (table : List AmenityRecord) (amenityIds : List String) :
    List AmenityRecord :=
  if amenityIds.isEmpty then []
  else table.filter fun r => amenityIds.contains r._id

/-- Model of the JS `String.prototype.toLowerCase()` used on amenity names:
each character lowercased.  (Equivalent to `String.toLower`, written on the
character list so that proofs can evaluate it.) -/
def jsToLower (s : String) : String :=
  ⟨s.data.map Char.toLower⟩

/-- Model of the `String.prototype.trim()` demanded by the ranking claim:
whitespace stripped from both ends.  (Written on the character list so that
proofs can evaluate it.) -/
def jsTrim (s : String) : String :=
  ⟨((s.data.dropWhile Char.isWhitespace).reverse.dropWhile Char.isWhitespace).reverse⟩

/-- Comparator relation of the final sort of `parseAmenities`
(`(a, b) => a.priority - b.priority`): ascending priority. -/
def byPriority (a b : RankedAmenity) : Prop := a.priority ≤ b.priority

instance : DecidableRel byPriority := fun a b =>
  inferInstanceAs (Decidable (a.priority ≤ b.priority))

/-- Mapping step of `parseAmenities` for one fetched record: priority lookup on the
lowercased (not trimmed) record name with the synthetic `(999, check-mark)`
default for unmapped names, raw record name, normalized icon URL
(`https:` is prefixed to protocol-relative URLs), and provenance `in-unit`
exactly when the id occurs in the in-unit id list. -/
def rankAmenity (inUnitIds : List String) (a : AmenityRecord) : RankedAmenity :=
  let nameLower := jsToLower (a.Name.getD "")
  let priorityInfo := (AMENITY_PRIORITY_MAP nameLower).getD (999, "✓")
  { id := a._id
    name := a.Name
    icon := priorityInfo.2
    iconUrl := match a.Icon with
      | some s => if s.isEmpty then none
          else some (if s.startsWith "//" then "https:" ++ s else s)
      | none => none
    priority := priorityInfo.1
    category := if inUnitIds.contains a._id then "in-unit" else "in-building" }

/-- Pre-sort content of `parseAmenities`: the fetched rows for the concatenated id
list, each mapped by `rankAmenity`. -/
def mappedAmenities (inUnitIds inBuildingIds : List String) (table : List AmenityRecord) :
    List RankedAmenity :=
  (fetchAmenityDetails table (inUnitIds ++ inBuildingIds)).map (rankAmenity inUnitIds)

/-- Embedding of `parseAmenities(inUnitAmenities, inBuildingAmenities)` applied to
already-parsed id arrays (the JSON-string branch of the inner `parseJson` helper is
upstream input normalization) and an explicit lookup table.  An empty concatenated
id list returns `[]`; otherwise the mapped rows are stably sorted by ascending
priority (`Array.prototype.sort` is stable, modelled by `List.insertionSort`). -/
def parseAmenities (inUnitIds inBuildingIds : List String) (table : List AmenityRecord) :
    List RankedAmenity :=
  if (inUnitIds ++ inBuildingIds).isEmpty then []
  else (mappedAmenities inUnitIds inBuildingIds table).insertionSort byPriority

/-- Priority actually assigned by `rankAmenity` as a function of the record name:
lookup of the lowercased, untrimmed name, defaulting to 999. -/
def codePriority (name : Option String) : Nat :=
  ((AMENITY_PRIORITY_MAP (jsToLower (name.getD ""))).map Prod.fst).getD 999

/-- Priority lookup following the words of the ranking claim (spec section 4.2,
step 3): the resolved display name is looked up case-insensitively AND trimmed,
names not found sort last.  This is the comparison definition for the refinement
check of that claim; the code itself does not trim. -/
def claimedTrimmedPriority (name : Option String) : Nat :=
  ((AMENITY_PRIORITY_MAP (jsToLower (jsTrim (name.getD "")))).map Prod.fst).getD 999

/-! ## Example data used in the claim theorems and witnesses -/

/-- Listing with the single rate {2: 200} and no starting price. -/
def onlyTwoNights : Listing :=
  ⟨fun n => if n = 2 then some 200 else none, fun _ => none, none, none⟩

/-- Listing with the single rate {2: 200} and starting price 150. -/
def onlyTwoNightsStarting : Listing :=
  ⟨fun n => if n = 2 then some 200 else none, fun _ => none, some 150, none⟩

/-- Listing with rates {3: 300, 5: 500}. -/
def ratesThreeFive : Listing :=
  ⟨fun n => if n = 3 then some 300 else if n = 5 then some 500 else none,
    fun _ => none, none, none⟩

/-- Listing with rates {2: 200, 7: 700}. -/
def ratesTwoSeven : Listing :=
  ⟨fun n => if n = 2 then some 200 else if n = 7 then some 700 else none,
    fun _ => none, none, none⟩

/-- Listing with rates {2: 200, 3: 250}, both strictly below a target of 5 nights. -/
def ratesTwoThree : Listing :=
  ⟨fun n => if n = 2 then some 200 else if n = 3 then some 250 else none,
    fun _ => none, none, none⟩

/-- Listing with an empty rate table and starting price 150. -/
def emptyStarting : Listing := ⟨fun _ => none, fun _ => none, some 150, none⟩

/-- Listing with an empty rate table and no starting price. -/
def emptyNoStarting : Listing := ⟨fun _ => none, fun _ => none, none, none⟩

/-- Listing with an empty rate table and negative starting price -50. -/
def emptyNegStarting : Listing := ⟨fun _ => none, fun _ => none, some (-50), none⟩

/-- Listing with a zero rate at 4 nights next to rates {3: 300, 5: 500}. -/
def zeroAtFour : Listing :=
  ⟨fun n => if n = 4 then some 0 else if n = 3 then some 300 else if n = 5 then some 500 else none,
    fun _ => none, none, none⟩

/-- Lookup record named WiFi. -/
def wifiRec : AmenityRecord := ⟨"idW", some "WiFi", none⟩

/-- Lookup record named Closet. -/
def closetRec : AmenityRecord := ⟨"idC", some "Closet", none⟩

/-- Lookup record with a name outside the priority map. -/
def unknownRec : AmenityRecord := ⟨"idU", some "Unknown-X", none⟩

/-- Lookup record whose WiFi name carries surrounding spaces. -/
def paddedWifiRec : AmenityRecord := ⟨"idP", some " WiFi ", none⟩

/-- Lookup record named Gym. -/
def gymRec : AmenityRecord := ⟨"idG", some "Gym", none⟩

/-- Lookup record named Washer (priority 7). -/
def washerRec : AmenityRecord := ⟨"idA", some "Washer", none⟩

/-- Lookup record named Dryer (also priority 7, for stability checks). -/
def dryerRec : AmenityRecord := ⟨"idB", some "Dryer", none⟩

/-- Listing with the rate entry at night count `t` removed from both rate fields,
used to state that a non-positive entry behaves exactly as an absent one. -/
def eraseRate (l : Listing) (t : Int) : Listing :=
  { l with
    priceSel := fun n => if n = t then none else l.priceSel n
    emojiRate := fun n => if n = t then none else l.emojiRate n }

/-- A rate field value that the code treats as unknown: absent, or a value ≤ 0. -/
def rateMissing (v : Option ℚ) : Prop := ∀ q : ℚ, v = some q → q ≤ 0

/-- Lookup record with id `x`, named Gym. -/
def xGymRec : AmenityRecord := ⟨"x", some "Gym", none⟩

instance : IsTotal RankedAmenity byPriority :=
  ⟨fun a b => Nat.le_total a.priority b.priority⟩

instance : IsTrans RankedAmenity byPriority :=
  ⟨fun _ _ _ => Nat.le_trans⟩

/-! ## General lemmas about the embedding -/

theorem pricePos_getD {v : Option ℚ} (h : pricePos v = true) : 0 < v.getD 0 := by
  cases v with
  | none => simp [pricePos] at h
  | some q => simpa [pricePos] using h

theorem pricePos_jsOr_false {a b : Option ℚ} (ha : pricePos a = false)
    (hb : pricePos b = false) : pricePos (jsOr a b) = false := by
  unfold jsOr
  split <;> assumption

theorem availablePrices_pos {l : Listing} {p : Int × ℚ} (hp : p ∈ availablePrices l) :
    0 < p.2 := by
  simp only [availablePrices, List.mem_filterMap] at hp
  obtain ⟨i, -, hi⟩ := hp
  split at hi
  · rename_i h
    injection hi with hps
    subst hps
    exact pricePos_getD h
  · cases hi

theorem two_le_length_of_mem_ne {α : Type} {l : List α} {a b : α} (ha : a ∈ l)
    (hb : b ∈ l) (hne : a ≠ b) : 2 ≤ l.length := by
  cases l with
  | nil => cases ha
  | cons x t =>
    cases t with
    | nil =>
      have ha' := List.mem_singleton.mp ha
      have hb' := List.mem_singleton.mp hb
      exact absurd (ha'.trans hb'.symm) hne
    | cons y t2 => simp only [List.length_cons]; omega

theorem insertionSort_head_exists {α : Type} (r : α → α → Prop) [DecidableRel r]
    {l : List α} (h : l ≠ []) : ∃ x, (l.insertionSort r).head? = some x := by
  cases hsort : l.insertionSort r with
  | nil =>
    exfalso
    have hlen := List.length_insertionSort r l
    rw [hsort] at hlen
    exact h (List.eq_nil_of_length_eq_zero hlen.symm)
  | cons z t => exact ⟨z, rfl⟩

theorem head_insertionSort_min {α : Type} (r : α → α → Prop) [DecidableRel r]
    (total : ∀ a b, r a b ∨ r b a) (htrans : ∀ a b c, r a b → r b c → r a c)
    {l : List α} {x : α} (hx : (l.insertionSort r).head? = some x) :
    x ∈ l ∧ ∀ y ∈ l, y = x ∨ r x y := by
  haveI : IsTotal α r := ⟨total⟩
  haveI : IsTrans α r := ⟨htrans⟩
  have hs : List.Sorted r (l.insertionSort r) := List.sorted_insertionSort r l
  have hperm : List.Perm (l.insertionSort r) l := List.perm_insertionSort r l
  cases hsort : l.insertionSort r with
  | nil => rw [hsort] at hx; cases hx
  | cons z t =>
    rw [hsort] at hx hperm hs
    rw [List.head?_cons] at hx
    injection hx with hzx
    subst hzx
    refine ⟨hperm.mem_iff.mp (List.mem_cons_self _ _), ?_⟩
    intro y hy
    rcases List.mem_cons.mp (hperm.mem_iff.mpr hy) with h | h
    · exact Or.inl h
    · exact Or.inr (List.rel_of_sorted_cons hs y h)

theorem resolve_of_not_range {l : Listing} {d : Int}
    (h : ¬(2 ≤ max (d - 1) 1 ∧ max (d - 1) 1 ≤ 7)) :
    resolve l d = fallbackResolved l := by
  simp only [resolve]
  rw [if_neg h]

theorem resolve_of_noexact {l : Listing} {d : Int}
    (h : 2 ≤ max (d - 1) 1 ∧ max (d - 1) 1 ≤ 7)
    (hp : pricePos (l.priceSel (max (d - 1) 1)) = false)
    (he : pricePos (l.emojiRate (max (d - 1) 1)) = false) :
    resolve l d = if 0 < (interpolateTagged l (max (d - 1) 1)).1
      then interpolateTagged l (max (d - 1) 1) else fallbackResolved l := by
  simp only [resolve, hp, he]
  rw [if_pos h]
  simp

theorem interpolateTagged_short {l : Listing} {t : Int}
    (h : (availablePrices l).length < 2) :
    interpolateTagged l t = (0, .Unavailable) := by
  simp only [interpolateTagged]
  rw [if_pos h]

theorem interpolateTagged_bracket {l : Listing} {t : Int} {lo hi : Int × ℚ}
    (hlen : ¬(availablePrices l).length < 2)
    (hlo : (lowerSorted l t).head? = some lo)
    (hhi : (higherSorted l t).head? = some hi) :
    interpolateTagged l t
      = (lo.2 + ((t : ℚ) - (lo.1 : ℚ)) / ((hi.1 : ℚ) - (lo.1 : ℚ)) * (hi.2 - lo.2),
          .Interpolated) := by
  simp only [interpolateTagged]
  rw [if_neg hlen, hlo, hhi]

theorem interpolateTagged_nearest {l : Listing} {t : Int} {c : Int × ℚ}
    (hlen : ¬(availablePrices l).length < 2)
    (hnb : (lowerSorted l t).head? = none ∨ (higherSorted l t).head? = none)
    (hc : (closestSorted l t).head? = some c) :
    interpolateTagged l t = (c.2, .NearestNeighbor) := by
  simp only [interpolateTagged]
  rw [if_neg hlen]
  rcases hnb with h | h
  · rw [h, hc]
  · cases hl : (lowerSorted l t).head? with
    | none => rw [h, hc]
    | some lo => rw [h, hc]

theorem interpolateTagged_snd_ne_exact (l : Listing) (t : Int) :
    (interpolateTagged l t).2 ≠ PriceSource.Exact := by
  simp only [interpolateTagged]
  split
  · simp
  · split
    · simp
    · split <;> simp

theorem fallbackResolved_snd_ne_exact (l : Listing) :
    (fallbackResolved l).2 ≠ PriceSource.Exact := by
  simp only [fallbackResolved]
  split <;> simp

/-! ## Claim C2: non-positive target night counts -/

/-- C2 counterexample: a non-positive target night count (selectedDaysCount = 0,
hence targetNights = -1) surfaces no error at all: the code clamps the night count
to 1 and silently returns the starting price 150 through the starting-price
fallback branch, i.e. it defaults and returns a price instead of reporting
InvalidQuery. -/
theorem C2_counterexample :
    resolve emptyStarting 0 = (150, PriceSource.StartingPriceFallback) := by
  decide

/-- C2 amended: for every query whose target night count is non-positive
(selectedDaysCount ≤ 1, so selectedDaysCount - 1 ≤ 0), resolve raises no error;
the night count is clamped to 1, which fails the 2..7 range check, and the query
silently resolves to the starting-price fallback. -/
theorem C2_invalid_query_clamped (l : Listing) (d : Int) (hd : d ≤ 1) :
    resolve l d = fallbackResolved l := by
  apply resolve_of_not_range
  omega

/-- C2 witness: the amended theorem applied at selectedDaysCount = 0. -/
theorem C2_invalid_query_clamped_witness :
    (0 : Int) ≤ 1 ∧ resolve emptyStarting 0 = fallbackResolved emptyStarting :=
  ⟨by decide, C2_invalid_query_clamped emptyStarting 0 (by decide)⟩

/-! ## Claim C3: targets outside the 2..7 domain -/

/-- C3 counterexample: with rates {2: 200, 7: 700} and target 8 nights
(selectedDaysCount = 9), the 2..7 range check bypasses the resolution algorithm:
resolve returns (0, Unavailable) — the empty starting-price fallback — and not the
nearest known rate 700, even though the interpolation helper itself would return
(700, NearestNeighbor) at target 8; `getPriceForNights` likewise returns the raw
starting-price chain (0 here), never consulting the rate table. -/
theorem C3_counterexample :
    resolve ratesTwoSeven 9 = (0, PriceSource.Unavailable) ∧
      interpolateTagged ratesTwoSeven 8 = (700, PriceSource.NearestNeighbor) ∧
      getPriceForNights ratesTwoSeven 8 = 0 := by
  decide

/-- C3 amended: targets outside 2..7 are NOT resolved by the exact-match /
interpolation / nearest-neighbor algorithm.  Both `calculateDynamicPrice` (via its
clamped night count) and `getPriceForNights` have a hard range check and return
the starting-price chain directly. -/
theorem C3_out_of_range :
    (∀ (l : Listing) (d : Int), max (d - 1) 1 < 2 ∨ 7 < max (d - 1) 1 →
      resolve l d = fallbackResolved l) ∧
    (∀ (l : Listing) (n : Int), n < 2 ∨ 7 < n →
      getPriceForNights l n = startingFallback l) := by
  constructor
  · intro l d h
    exact resolve_of_not_range (by omega)
  · intro l n h
    unfold getPriceForNights startingFallback
    rw [if_pos h]

/-- C3 witness: the amended theorem applied at the {2: 200, 7: 700} listing with
selectedDaysCount = 9 (night count 8) and at night count 1. -/
theorem C3_out_of_range_witness :
    resolve ratesTwoSeven 9 = fallbackResolved ratesTwoSeven ∧
      getPriceForNights ratesTwoSeven 1 = startingFallback ratesTwoSeven :=
  ⟨C3_out_of_range.1 ratesTwoSeven 9 (by decide),
    C3_out_of_range.2 ratesTwoSeven 1 (by decide)⟩

/-! ## Claim C5: total fallback and sign of the result -/

/-- C5 counterexample: with an empty rate table and Starting nightly price -50,
the code returns -50 through the starting-price branch, so the resolved per-night
amount is NOT always ≥ 0 and a non-positive starting price is not normalized to
(0, Unavailable). -/
theorem C5_counterexample :
    resolve emptyNegStarting 6 = (-50, PriceSource.StartingPriceFallback) ∧
      ¬0 ≤ (resolve emptyNegStarting 6).1 := by
  decide

/-- C5 amended: when no night count has a positive rate in either rate field,
resolve returns the starting-price chain value as-is: 150 gives
(150, StartingPriceFallback) and an absent starting price gives (0, Unavailable),
but a negative starting price is passed through unchanged (tagged
StartingPriceFallback), so the result is guaranteed nonnegative only when the
starting-price fields are themselves nonnegative. -/
theorem C5_total_fallback :
    (∀ (l : Listing) (d : Int),
      (∀ n : Int, pricePos (l.priceSel n) = false ∧ pricePos (l.emojiRate n) = false) →
      resolve l d = fallbackResolved l) ∧
    (∀ l : Listing, 0 ≤ l.startingNightly.getD 0 → 0 ≤ l.priceStarting.getD 0 →
      0 ≤ (fallbackResolved l).1) ∧
    resolve emptyStarting 6 = (150, PriceSource.StartingPriceFallback) ∧
    resolve emptyNoStarting 6 = (0, PriceSource.Unavailable) := by
  refine ⟨?_, ?_, by decide, by decide⟩
  · intro l d h
    by_cases hr : 2 ≤ max (d - 1) 1 ∧ max (d - 1) 1 ≤ 7
    · rw [resolve_of_noexact hr (h _).1 (h _).2]
      have hap : availablePrices l = [] := by
        simp only [availablePrices, List.filterMap_eq_nil_iff]
        intro i _
        have hjs := pricePos_jsOr_false (h ((i : Int) + 2)).1 (h ((i : Int) + 2)).2
        simp [hjs]
      rw [interpolateTagged_short (by rw [hap]; simp)]
      simp
    · exact resolve_of_not_range hr
  · intro l h1 h2
    have hs : 0 ≤ startingFallback l := by
      unfold startingFallback jsOr
      split
      · exact h1
      · split
        · exact h2
        · simp
    simp only [fallbackResolved]
    split
    · simp
    · simpa using hs

/-- C5 witness: the amended theorem applied at the empty listing with negative
starting price (part 1) and at the empty listing with starting price 150
(part 2). -/
theorem C5_total_fallback_witness :
    resolve emptyNegStarting 6 = fallbackResolved emptyNegStarting ∧
      0 ≤ (fallbackResolved emptyStarting).1 :=
  ⟨C5_total_fallback.1 emptyNegStarting 6 (fun _ => ⟨rfl, rfl⟩),
    C5_total_fallback.2.1 emptyStarting (by decide) (by decide)⟩

/-! ## Claim C1: nearest-neighbor fallback -/

/-- C1 counterexample: with only the rate {2: 200} — exactly one known rate — and
target 5 nights (selectedDaysCount = 6), the code returns (0, Unavailable): the
interpolation helper requires at least two data points, so its nearest-neighbor
branch is never reached and resolve falls through to the (empty) starting-price
fallback instead of returning 200 with source NearestNeighbor. -/
theorem C1_counterexample :
    resolve onlyTwoNights 6 = (0, PriceSource.Unavailable) ∧
      resolve onlyTwoNights 6 ≠ (200, PriceSource.NearestNeighbor) := by
  decide

/-- C1 amended: the nearest-neighbor fallback requires at least TWO known rates.
Part 1: with at least two available rates, no positive rate at the target itself
in either field, and all available rates strictly on one side of the target,
resolve returns an available rate whose night count is at minimal distance from
the target, with source NearestNeighbor.  Part 2: with exactly one available rate
(and no positive rate at the target), interpolation returns 0 and resolve falls
back to the starting price, so the claimed {2: 200} / target-5 example instead
yields the starting-price fallback (part 3 shows it concretely: 150, not 200). -/
theorem C1_nearest_neighbor :
    (∀ (l : Listing) (d : Int),
      2 ≤ max (d - 1) 1 ∧ max (d - 1) 1 ≤ 7 →
      pricePos (l.priceSel (max (d - 1) 1)) = false →
      pricePos (l.emojiRate (max (d - 1) 1)) = false →
      2 ≤ (availablePrices l).length →
      ((∀ p ∈ availablePrices l, p.1 < max (d - 1) 1) ∨
        (∀ p ∈ availablePrices l, max (d - 1) 1 < p.1)) →
      ∃ c ∈ availablePrices l,
        resolve l d = (c.2, PriceSource.NearestNeighbor) ∧
        ∀ q ∈ availablePrices l,
          |c.1 - max (d - 1) 1| ≤ |q.1 - max (d - 1) 1|) ∧
    (∀ (l : Listing) (d : Int),
      2 ≤ max (d - 1) 1 ∧ max (d - 1) 1 ≤ 7 →
      pricePos (l.priceSel (max (d - 1) 1)) = false →
      pricePos (l.emojiRate (max (d - 1) 1)) = false →
      (availablePrices l).length = 1 →
      interpolatePricing l (max (d - 1) 1) = 0 ∧ resolve l d = fallbackResolved l) ∧
    resolve onlyTwoNightsStarting 6 = (150, PriceSource.StartingPriceFallback) := by
  refine ⟨?_, ?_, by decide⟩
  · intro l d hr hp he hlen hside
    have hapne : availablePrices l ≠ [] := by
      intro h0
      rw [h0] at hlen
      simp at hlen
    obtain ⟨c, hc⟩ :=
      insertionSort_head_exists
        (fun a b : Int × ℚ => |a.1 - max (d - 1) 1| ≤ |b.1 - max (d - 1) 1|) hapne
    have hc' : (closestSorted l (max (d - 1) 1)).head? = some c := hc
    have hmin :=
      head_insertionSort_min
        (fun a b : Int × ℚ => |a.1 - max (d - 1) 1| ≤ |b.1 - max (d - 1) 1|)
        (fun a b => le_total _ _) (fun _ _ _ hab hbc => le_trans hab hbc) hc
    have hnb : (lowerSorted l (max (d - 1) 1)).head? = none ∨
        (higherSorted l (max (d - 1) 1)).head? = none := by
      rcases hside with hs | hs
      · right
        have hfil : (availablePrices l).filter
            (fun p => decide (max (d - 1) 1 < p.1)) = [] := by
          rw [List.filter_eq_nil_iff]
          intro p hpmem
          simpa using not_lt.mpr (le_of_lt (hs p hpmem))
        unfold higherSorted
        rw [hfil]
        rfl
      · left
        have hfil : (availablePrices l).filter
            (fun p => decide (p.1 < max (d - 1) 1)) = [] := by
          rw [List.filter_eq_nil_iff]
          intro p hpmem
          simpa using not_lt.mpr (le_of_lt (hs p hpmem))
        unfold lowerSorted
        rw [hfil]
        rfl
    have hit := interpolateTagged_nearest (by omega) hnb hc'
    have hcpos := availablePrices_pos hmin.1
    refine ⟨c, hmin.1, ?_, ?_⟩
    · rw [resolve_of_noexact hr hp he, hit]
      exact if_pos (show (0 : ℚ) < (c.2, PriceSource.NearestNeighbor).1 from hcpos)
    · intro q hq
      rcases hmin.2 q hq with h | h
      · rw [h]
      · exact h
  · intro l d hr hp he hlen1
    have hsh : interpolateTagged l (max (d - 1) 1) = (0, PriceSource.Unavailable) :=
      interpolateTagged_short (by omega)
    refine ⟨by simp [interpolatePricing, hsh], ?_⟩
    rw [resolve_of_noexact hr hp he, hsh]
    simp

/-- C1 witness: part 1 of the amended theorem applied at the listing with rates
{2: 200, 3: 250}, both strictly below the target of 5 nights
(selectedDaysCount = 6). -/
theorem C1_nearest_neighbor_witness :
    ∃ c ∈ availablePrices ratesTwoThree,
      resolve ratesTwoThree 6 = (c.2, PriceSource.NearestNeighbor) ∧
      ∀ q ∈ availablePrices ratesTwoThree,
        |c.1 - max ((6 : Int) - 1) 1| ≤ |q.1 - max ((6 : Int) - 1) 1| :=
  C1_nearest_neighbor.1 ratesTwoThree 6 (by decide) (by decide) (by decide)
    (by decide) (Or.inl (by decide))

/-! ## Claim C7: non-positive rates at the target are treated as missing -/

/-- C7: if neither rate field at the (clamped) target night count passes the
positive-price guard — in particular when the entry there is 0 or negative — then
resolution is identical to the same listing with those entries removed, and the
result never carries source Exact. -/
theorem C7_zero_as_missing (l : Listing) (d : Int)
    (hp : pricePos (l.priceSel (max (d - 1) 1)) = false)
    (he : pricePos (l.emojiRate (max (d - 1) 1)) = false) :
    resolve l d = resolve (eraseRate l (max (d - 1) 1)) d ∧
      (resolve l d).2 ≠ PriceSource.Exact := by
  have hap : availablePrices (eraseRate l (max (d - 1) 1)) = availablePrices l := by
    unfold availablePrices
    apply List.filterMap_congr
    intro i _
    by_cases hit : ((i : Int) + 2) = max (d - 1) 1
    · have h1 : (eraseRate l (max (d - 1) 1)).priceSel ((i : Int) + 2) = none := by
        simp [eraseRate, hit]
      have h2 : (eraseRate l (max (d - 1) 1)).emojiRate ((i : Int) + 2) = none := by
        simp [eraseRate, hit]
      have h3 : pricePos (jsOr (l.priceSel ((i : Int) + 2))
          (l.emojiRate ((i : Int) + 2))) = false := by
        rw [hit]
        exact pricePos_jsOr_false hp he
      simp only [h1, h2, h3, Bool.false_eq_true, if_false]
      rfl
    · have h1 : (eraseRate l (max (d - 1) 1)).priceSel ((i : Int) + 2)
          = l.priceSel ((i : Int) + 2) := by simp [eraseRate, hit]
      have h2 : (eraseRate l (max (d - 1) 1)).emojiRate ((i : Int) + 2)
          = l.emojiRate ((i : Int) + 2) := by simp [eraseRate, hit]
      simp only [h1, h2]
  have hfb : fallbackResolved (eraseRate l (max (d - 1) 1)) = fallbackResolved l := rfl
  have hint : interpolateTagged (eraseRate l (max (d - 1) 1)) (max (d - 1) 1)
      = interpolateTagged l (max (d - 1) 1) := by
    unfold interpolateTagged lowerSorted higherSorted closestSorted
    rw [hap]
  by_cases hr : 2 ≤ max (d - 1) 1 ∧ max (d - 1) 1 ≤ 7
  · have hp' : pricePos ((eraseRate l (max (d - 1) 1)).priceSel (max (d - 1) 1))
        = false := by simp [eraseRate, pricePos]
    have he' : pricePos ((eraseRate l (max (d - 1) 1)).emojiRate (max (d - 1) 1))
        = false := by simp [eraseRate, pricePos]
    rw [resolve_of_noexact hr hp he, resolve_of_noexact hr hp' he', hint, hfb]
    refine ⟨rfl, ?_⟩
    split
    · exact interpolateTagged_snd_ne_exact l (max (d - 1) 1)
    · exact fallbackResolved_snd_ne_exact l
  · rw [resolve_of_not_range hr, resolve_of_not_range hr, hfb]
    exact ⟨rfl, fallbackResolved_snd_ne_exact l⟩

/-- C7 witness: the theorem applied at the listing with a zero rate at 4 nights
next to rates {3: 300, 5: 500}, at selectedDaysCount = 5 (target 4 nights). -/
theorem C7_zero_as_missing_witness :
    resolve zeroAtFour 5 = resolve (eraseRate zeroAtFour (max ((5 : Int) - 1) 1)) 5 ∧
      (resolve zeroAtFour 5).2 ≠ PriceSource.Exact :=
  C7_zero_as_missing zeroAtFour 5 (by decide) (by decide)

/-! ## Claim C6: bracket interpolation -/

/-- C6: whenever some available rate lies strictly below and some strictly above
the target, the interpolation step selects the nearest available rate on each side
(never more distant ones), the denominator of the linear interpolation is nonzero,
and the result is the linear interpolation between those two points with source
Interpolated; concretely, {3: 300, 5: 500} at target 4 nights resolves to 400 and
{2: 200, 7: 700} at target 5 nights resolves to 500, both with source
Interpolated. -/
theorem C6_interpolation :
    (∀ (l : Listing) (t : Int) (lo0 hi0 : Int × ℚ),
      lo0 ∈ availablePrices l → lo0.1 < t → hi0 ∈ availablePrices l → t < hi0.1 →
      ∃ lo ∈ availablePrices l, ∃ hi ∈ availablePrices l,
        lo.1 < t ∧ t < hi.1 ∧
        (∀ q ∈ availablePrices l, q.1 < t → q.1 ≤ lo.1) ∧
        (∀ q ∈ availablePrices l, t < q.1 → hi.1 ≤ q.1) ∧
        (hi.1 : ℚ) - (lo.1 : ℚ) ≠ 0 ∧
        interpolateTagged l t
          = (lo.2 + ((t : ℚ) - (lo.1 : ℚ)) / ((hi.1 : ℚ) - (lo.1 : ℚ)) * (hi.2 - lo.2),
              PriceSource.Interpolated)) ∧
    resolve ratesThreeFive 5 = (400, PriceSource.Interpolated) ∧
    resolve ratesTwoSeven 6 = (500, PriceSource.Interpolated) := by
  refine ⟨?_, ?_, ?_⟩
  case refine_2 =>
    have hmax : max ((5 : Int) - 1) 1 = 4 := by decide
    rw [resolve_of_noexact (by decide) (by decide) (by decide), hmax,
      interpolateTagged_bracket (by decide)
        (show (lowerSorted ratesThreeFive 4).head? = some (3, 300) by decide)
        (show (higherSorted ratesThreeFive 4).head? = some (5, 500) by decide)]
    norm_num
  case refine_3 =>
    have hmax : max ((6 : Int) - 1) 1 = 5 := by decide
    rw [resolve_of_noexact (by decide) (by decide) (by decide), hmax,
      interpolateTagged_bracket (by decide)
        (show (lowerSorted ratesTwoSeven 5).head? = some (2, 200) by decide)
        (show (higherSorted ratesTwoSeven 5).head? = some (7, 700) by decide)]
    norm_num
  intro l t lo0 hi0 hlo0 hlo0t hhi0 hhi0t
  have hne : lo0 ≠ hi0 := by
    intro h
    rw [h] at hlo0t
    omega
  have hlen : 2 ≤ (availablePrices l).length := two_le_length_of_mem_ne hlo0 hhi0 hne
  have hlne : (availablePrices l).filter (fun p => decide (p.1 < t)) ≠ [] := by
    intro h
    have := List.filter_eq_nil_iff.mp h lo0 hlo0
    simp [hlo0t] at this
  have hhne : (availablePrices l).filter (fun p => decide (t < p.1)) ≠ [] := by
    intro h
    have := List.filter_eq_nil_iff.mp h hi0 hhi0
    simp [hhi0t] at this
  obtain ⟨lo, hlo⟩ := insertionSort_head_exists (fun a b : Int × ℚ => b.1 ≤ a.1) hlne
  obtain ⟨hi, hhi⟩ := insertionSort_head_exists (fun a b : Int × ℚ => a.1 ≤ b.1) hhne
  have hlo' : (lowerSorted l t).head? = some lo := hlo
  have hhi' : (higherSorted l t).head? = some hi := hhi
  have hloMin :=
    head_insertionSort_min (fun a b : Int × ℚ => b.1 ≤ a.1)
      (fun a b => le_total b.1 a.1) (fun _ _ _ hab hbc => le_trans hbc hab) hlo
  have hhiMin :=
    head_insertionSort_min (fun a b : Int × ℚ => a.1 ≤ b.1)
      (fun a b => le_total a.1 b.1) (fun _ _ _ hab hbc => le_trans hab hbc) hhi
  have hloMem : lo ∈ availablePrices l ∧ lo.1 < t := by
    have := List.mem_filter.mp hloMin.1
    exact ⟨this.1, of_decide_eq_true this.2⟩
  have hhiMem : hi ∈ availablePrices l ∧ t < hi.1 := by
    have := List.mem_filter.mp hhiMin.1
    exact ⟨this.1, of_decide_eq_true this.2⟩
  refine ⟨lo, hloMem.1, hi, hhiMem.1, hloMem.2, hhiMem.2, ?_, ?_, ?_, ?_⟩
  · intro q hq hqt
    have hqf : q ∈ (availablePrices l).filter (fun p => decide (p.1 < t)) :=
      List.mem_filter.mpr ⟨hq, decide_eq_true hqt⟩
    rcases hloMin.2 q hqf with h | h
    · rw [h]
    · exact h
  · intro q hq hqt
    have hqf : q ∈ (availablePrices l).filter (fun p => decide (t < p.1)) :=
      List.mem_filter.mpr ⟨hq, decide_eq_true hqt⟩
    rcases hhiMin.2 q hqf with h | h
    · rw [h]
    · exact h
  · have : (lo.1 : ℚ) < (hi.1 : ℚ) := by
      exact_mod_cast lt_trans hloMem.2 hhiMem.2
    exact sub_ne_zero.mpr (ne_of_gt this)
  · exact interpolateTagged_bracket (by omega) hlo' hhi'

/-- C6 witness: the general part applied at the {3: 300, 5: 500} listing with
target 4 nights, bracketed by (3, 300) and (5, 500). -/
theorem C6_interpolation_witness :
    ∃ lo ∈ availablePrices ratesThreeFive, ∃ hi ∈ availablePrices ratesThreeFive,
      lo.1 < 4 ∧ (4 : Int) < hi.1 ∧
      (∀ q ∈ availablePrices ratesThreeFive, q.1 < 4 → q.1 ≤ lo.1) ∧
      (∀ q ∈ availablePrices ratesThreeFive, (4 : Int) < q.1 → hi.1 ≤ q.1) ∧
      (hi.1 : ℚ) - (lo.1 : ℚ) ≠ 0 ∧
      interpolateTagged ratesThreeFive 4
        = (lo.2 + (((4 : Int) : ℚ) - (lo.1 : ℚ)) / ((hi.1 : ℚ) - (lo.1 : ℚ))
            * (hi.2 - lo.2), PriceSource.Interpolated) :=
  C6_interpolation.1 ratesThreeFive 4 (3, 300) (5, 500) (by decide) (by decide)
    (by decide) (by decide)

/-! ## Claim C10: getPriceForNights -/

theorem missing_pricePos {v : Option ℚ} (h : rateMissing v) : pricePos v = false := by
  cases v with
  | none => rfl
  | some q => exact decide_eq_false (not_lt.mpr (h q rfl))

/-- C10: for night counts inside 2..7 whose rate fields are absent or
non-positive, `getPriceForNights` returns 0 — it neither interpolates nor falls
back to the starting price; for night counts outside 2..7 it returns the raw
starting-price chain (0 when absent) and never consults the rate fields (part 3:
the result is the same for any two listings agreeing on the starting-price
fields). -/
theorem C10_getPriceForNights :
    (∀ (l : Listing) (n : Int), 2 ≤ n → n ≤ 7 →
      rateMissing (l.priceSel n) → rateMissing (l.emojiRate n) →
      getPriceForNights l n = 0) ∧
    (∀ (l : Listing) (n : Int), n < 2 ∨ 7 < n →
      getPriceForNights l n = startingFallback l) ∧
    (∀ (l l2 : Listing) (n : Int), n < 2 ∨ 7 < n →
      l.startingNightly = l2.startingNightly → l.priceStarting = l2.priceStarting →
      getPriceForNights l n = getPriceForNights l2 n) := by
  have hout : ∀ (l : Listing) (n : Int), n < 2 ∨ 7 < n →
      getPriceForNights l n = startingFallback l := by
    intro l n h
    unfold getPriceForNights startingFallback
    rw [if_pos h]
  refine ⟨?_, hout, ?_⟩
  · intro l n h2 h7 hm1 hm2
    have hjs := pricePos_jsOr_false (missing_pricePos hm1) (missing_pricePos hm2)
    simp only [getPriceForNights]
    rw [if_neg (by omega)]
    simp [hjs]
  · intro l l2 n h hs hp
    rw [hout l n h, hout l2 n h]
    unfold startingFallback
    rw [hs, hp]

/-- C10 witness: zero rate fields at 4 nights give 0; night count 1 gives the raw
starting chain. -/
theorem C10_getPriceForNights_witness :
    getPriceForNights zeroAtFour 4 = 0 ∧
      getPriceForNights emptyStarting 1 = startingFallback emptyStarting :=
  ⟨C10_getPriceForNights.1 zeroAtFour 4 (by decide) (by decide)
      (fun q hq => by
        simp [zeroAtFour] at hq
        first
        | exact le_of_eq hq
        | exact le_of_eq hq.symm)
      (fun q hq => by simp [zeroAtFour] at hq),
    C10_getPriceForNights.2.1 emptyStarting 1 (by decide)⟩

/-! ## Claim C4: unknown amenity ids -/

theorem mem_parseAmenities {u b : List String} {table : List AmenityRecord}
    {e : RankedAmenity} (he : e ∈ parseAmenities u b table) :
    ∃ a ∈ table, e = rankAmenity u a := by
  unfold parseAmenities at he
  split at he
  · cases he
  · have hm : e ∈ mappedAmenities u b table :=
      (List.mem_insertionSort byPriority).mp he
    unfold mappedAmenities fetchAmenityDetails at hm
    split at hm
    · cases hm
    · rw [List.mem_map] at hm
      obtain ⟨a, ha, rfl⟩ := hm
      exact ⟨a, (List.mem_filter.mp ha).1, rfl⟩

/-- C4 counterexample: the id x has no record in the lookup table, and the
aggregation output is empty — the id is omitted entirely instead of appearing
with its raw id as display name. -/
theorem C4_counterexample :
    parseAmenities ["x"] [] [wifiRec] = [] ∧
      ¬∃ e ∈ parseAmenities ["x"] [] [wifiRec], e.id = "x" := by
  decide

/-- C4 amended: input ids with no matching record in the lookup table are dropped
from the output — every output entry stems from a record of the table (same id,
same name); the synthetic 999-priority descriptor applies only to record NAMES
outside the priority map, never to unmatched ids. -/
theorem C4_unknown_ids_dropped (u b : List String) (table : List AmenityRecord) :
    ∀ e ∈ parseAmenities u b table, ∃ r ∈ table, r._id = e.id ∧ e.name = r.Name := by
  intro e he
  obtain ⟨a, ha, rfl⟩ := mem_parseAmenities he
  exact ⟨a, ha, rfl, rfl⟩

/-- C4 witness: the amended theorem applied to the single output entry of a
one-record lookup. -/
theorem C4_unknown_ids_dropped_witness :
    ∃ r ∈ [wifiRec],
      r._id = (⟨"idW", some "WiFi", "📶", none, 1, "in-unit"⟩ : RankedAmenity).id ∧
      (⟨"idW", some "WiFi", "📶", none, 1, "in-unit"⟩ : RankedAmenity).name = r.Name :=
  C4_unknown_ids_dropped ["idW"] [] [wifiRec] _ (by decide)

/-! ## Claim C8: amenity ranking -/

/-- C8 counterexample: the code looks a display name up lowercased but NOT
trimmed.  A record whose WiFi name carries surrounding spaces misses the priority
map and is ranked 999 (sort-last) instead of rank 1, sorting after Closet (12) —
whereas the trimmed lookup of the claim would rank it 1 and sort it first. -/
theorem C8_counterexample :
    ((parseAmenities ["idP", "idC"] [] [paddedWifiRec, closetRec]).map
        fun a => (a.name, a.priority))
      = [(some "Closet", 12), (some " WiFi ", 999)] ∧
      claimedTrimmedPriority (some " WiFi ") = 1 ∧
      codePriority (some " WiFi ") = 999 := by
  decide

/-- C8 amended: the priority lookup is case-insensitive on the raw, UNTRIMMED
name (every output entry carries exactly the priority of the lowercased-name
lookup, 999 for names outside the map); the output is sorted by ascending
priority; the sort is stable (any pairwise-ordered subsequence of the pre-sort
sequence — in particular equal-rank runs — survives in order); and on the
Closet/WiFi/Unknown-X example the output order is WiFi, Closet, Unknown-X for
every order of the lookup table rows. -/
theorem C8_ranking :
    (∀ (u b : List String) (table : List AmenityRecord),
      List.Sorted byPriority (parseAmenities u b table)) ∧
    (∀ (u b : List String) (table : List AmenityRecord) (c : List RankedAmenity),
      c.Pairwise byPriority → List.Sublist c (mappedAmenities u b table) →
      List.Sublist c (parseAmenities u b table)) ∧
    (∀ (u b : List String) (table : List AmenityRecord),
      ∀ e ∈ parseAmenities u b table, e.priority = codePriority e.name) ∧
    ((parseAmenities ["idW", "idC", "idU"] [] [wifiRec, closetRec, unknownRec]).map
        (fun a => a.name) = [some "WiFi", some "Closet", some "Unknown-X"]) ∧
    ((parseAmenities ["idW", "idC", "idU"] [] [wifiRec, unknownRec, closetRec]).map
        (fun a => a.name) = [some "WiFi", some "Closet", some "Unknown-X"]) ∧
    ((parseAmenities ["idW", "idC", "idU"] [] [closetRec, wifiRec, unknownRec]).map
        (fun a => a.name) = [some "WiFi", some "Closet", some "Unknown-X"]) ∧
    ((parseAmenities ["idW", "idC", "idU"] [] [closetRec, unknownRec, wifiRec]).map
        (fun a => a.name) = [some "WiFi", some "Closet", some "Unknown-X"]) ∧
    ((parseAmenities ["idW", "idC", "idU"] [] [unknownRec, wifiRec, closetRec]).map
        (fun a => a.name) = [some "WiFi", some "Closet", some "Unknown-X"]) ∧
    ((parseAmenities ["idW", "idC", "idU"] [] [unknownRec, closetRec, wifiRec]).map
        (fun a => a.name) = [some "WiFi", some "Closet", some "Unknown-X"]) := by
  refine ⟨?_, ?_, ?_, by decide, by decide, by decide, by decide, by decide, by decide⟩
  · intro u b table
    unfold parseAmenities
    split
    · exact List.sorted_nil
    · exact List.sorted_insertionSort byPriority _
  · intro u b table c hp hc
    unfold parseAmenities
    split
    · rename_i h
      have hmap : mappedAmenities u b table = [] := by
        unfold mappedAmenities fetchAmenityDetails
        rw [if_pos h]
        rfl
      rw [hmap] at hc
      simpa using hc
    · exact List.sublist_insertionSort hp hc
  · intro u b table e he
    obtain ⟨a, -, rfl⟩ := mem_parseAmenities he
    show (rankAmenity u a).priority = codePriority (rankAmenity u a).name
    simp only [rankAmenity, codePriority]
    cases h : AMENITY_PRIORITY_MAP (jsToLower (a.Name.getD "")) <;> simp [h]

/-- C8 witness: sortedness at a concrete input, and stability at a concrete
equal-rank pair — Washer and Dryer both rank 7 and the whole pre-sort sequence
survives the sort in its original order. -/
theorem C8_ranking_witness :
    List.Sorted byPriority (parseAmenities ["idA", "idB"] [] [washerRec, dryerRec]) ∧
      List.Sublist (mappedAmenities ["idA", "idB"] [] [washerRec, dryerRec])
        (parseAmenities ["idA", "idB"] [] [washerRec, dryerRec]) :=
  ⟨C8_ranking.1 ["idA", "idB"] [] [washerRec, dryerRec],
    C8_ranking.2.1 ["idA", "idB"] [] [washerRec, dryerRec] _ (by decide)
      (List.Sublist.refl _)⟩

/-! ## Claim C9: merge precedence for ids in both sets -/

theorem filter_id_singleton {table : List AmenityRecord} {aid : String}
    (hn : (table.map fun r => r._id).Nodup) (hm : aid ∈ table.map fun r => r._id) :
    ∃ r, table.filter (fun r => decide (r._id = aid)) = [r] ∧ r._id = aid := by
  induction table with
  | nil => cases hm
  | cons x xs ih =>
    rw [List.map_cons, List.nodup_cons] at hn
    rw [List.map_cons] at hm
    by_cases hx : x._id = aid
    · refine ⟨x, ?_, hx⟩
      rw [List.filter_cons_of_pos (by simp [hx])]
      have hnil : xs.filter (fun r => decide (r._id = aid)) = [] := by
        rw [List.filter_eq_nil_iff]
        intro r hr
        simp only [decide_eq_true_eq]
        intro hreq
        exact hn.1 ((hx.trans hreq.symm) ▸ List.mem_map_of_mem (fun r => r._id) hr)
      rw [hnil]
    · rcases List.mem_cons.mp hm with h | h
      · exact absurd h.symm hx
      · obtain ⟨r, hr, hrid⟩ := ih hn.2 h
        exact ⟨r, by rw [List.filter_cons_of_neg (by simp [hx])]; exact hr, hrid⟩

/-- C9 counterexample: the claim quantifies over every lookup table, but an id
present in both sets and absent from the lookup table appears ZERO times in the
output, not exactly once — unknown ids are dropped. -/
theorem C9_counterexample :
    parseAmenities ["x"] ["x"] [] = [] ∧
      ((parseAmenities ["x"] ["x"] []).countP fun e => decide (e.id = "x")) = 0 := by
  decide

/-- C9 amended: when the lookup table has pairwise-distinct ids and the id in
question does have a record there, an id present in both the in-unit and the
in-building set yields exactly one output entry, tagged in-unit. -/
theorem C9_merge_precedence (u b : List String) (table : List AmenityRecord)
    (aid : String) (hn : (table.map fun r => r._id).Nodup) (hu : aid ∈ u)
    (hb : aid ∈ b) (hr : aid ∈ table.map fun r => r._id) :
    ((parseAmenities u b table).filter fun e => decide (e.id = aid)).map
        (fun e => e.category) = ["in-unit"] := by
  obtain ⟨r, hfil, hrid⟩ := filter_id_singleton hn hr
  have hne : ¬(u ++ b).isEmpty = true := by
    cases u with
    | nil => cases hu
    | cons x xs => simp
  have hmap : (mappedAmenities u b table).filter (fun e => decide (e.id = aid))
      = [rankAmenity u r] := by
    unfold mappedAmenities fetchAmenityDetails
    rw [if_neg hne, List.filter_map]
    have hcomp : (table.filter fun rr => (u ++ b).contains rr._id).filter
        ((fun e => decide (e.id = aid)) ∘ rankAmenity u)
        = table.filter (fun rr => decide (rr._id = aid)) := by
      rw [List.filter_filter]
      apply List.filter_congr
      intro rr _
      show (decide ((rankAmenity u rr).id = aid) && (u ++ b).contains rr._id)
        = decide (rr._id = aid)
      have hid : (rankAmenity u rr).id = rr._id := rfl
      rw [hid]
      by_cases hcase : rr._id = aid
      · subst hcase
        simp [List.contains, List.elem_eq_true_of_mem (List.mem_append_left b hu)]
        exact Or.inl hu
      · simp [hcase]
    rw [hcomp, hfil, List.map_cons, List.map_nil]
  have hperm : List.Perm
      ((parseAmenities u b table).filter fun e => decide (e.id = aid))
      ((mappedAmenities u b table).filter fun e => decide (e.id = aid)) := by
    unfold parseAmenities
    rw [if_neg hne]
    exact (List.perm_insertionSort byPriority _).filter _
  rw [hmap] at hperm
  rw [hperm.eq_singleton, List.map_cons, List.map_nil]
  have hcat : (rankAmenity u r).category = "in-unit" := by
    show (if u.contains r._id then "in-unit" else "in-building") = "in-unit"
    rw [if_pos ?hc]
    case hc =>
      show u.contains r._id = true
      rw [hrid]
      exact List.elem_eq_true_of_mem hu
  rw [hcat]

/-- C9 witness: the amended theorem at the id x present in both sets and backed by
one lookup record. -/
theorem C9_merge_precedence_witness :
    ((parseAmenities ["x"] ["x"] [xGymRec]).filter fun e => decide (e.id = "x")).map
        (fun e => e.category) = ["in-unit"] :=
  C9_merge_precedence ["x"] ["x"] [xGymRec] "x" (by decide) (by decide) (by decide)
    (by decide)

end SplitLease
